import Mathlib

/-!
Shallow embedding of the profiler calibration and deviation-analysis engine
of `src/pfd.c` (ccbench's `pfd` module), together with proofs of the spec's
testable properties.

Modelling conventions:
- `ticks` (unsigned 64-bit) values are modelled as `ℕ`; the clipping
  predicate keeps the source's signed-reinterpretation disjunct explicitly.
- IEEE doubles are modelled as exact rationals `ℚ`.  Every comparison the
  claims depend on is far from a rounding boundary, and all sums involved
  are exactly representable (clipped samples are at most 1500 and counts fit
  in 32 bits, so sums stay below 2^53).  NaN (the result of 0/0 in the
  source) is modelled explicitly with `Option ℚ` where it can arise.
- `sqrt` appears in the source only inside the quality test
  `std_pp = 100*(1 - (avg - std_dev)/avg); if (std_pp > 3)`.
  Since `avg > 0` and `std_dev ≥ 0` there, the test is equivalent to the
  rational inequality `9*avg^2 < 10000*(sum_stdev/n)`; the executable
  embedding uses that form, and the equivalence with the real-valued
  formula is proved (see `c5_quality_gate_and_retry_budget`).
- Hardware cycle-counter reads are oracle inputs: each calibration
  measurement round is an arbitrary sample list, and the raw deltas seen by
  `measure_minimum_tick_delta` are an arbitrary list.
-/

/-- `PFD_VAL_UP_LIMIT` from `pfd.c`: samples above this are invalid. -/
def PFD_VAL_UP_LIMIT : ℕ := 1500

/-- `PFD_CONSERVATIVE_DEFAULT` from `pfd.c` (32.0). -/
def PFD_CONSERVATIVE_DEFAULT : ℚ := 32

/-- `DBL_MAX`, the seed of the running minimum in `get_abs_deviation`
(exact value of the largest finite IEEE double). -/
def dblMax : ℚ := (2 ^ 53 - 1) * 2 ^ 971

/-- One entry of the in-place clipping pass of `get_abs_deviation`
(lines 457-464): an entry is zeroed when `(int64_t) v < 0` (that is,
`2^63 ≤ v` for a 64-bit unsigned `v`) or `v > PFD_VAL_UP_LIMIT`. -/
def clipVal (v : ℕ) : ℕ :=
  if 2 ^ 63 ≤ v ∨ PFD_VAL_UP_LIMIT < v then 0 else v

/-- The sample array after `get_abs_deviation`'s destructive first loop:
every entry clipped by `clipVal`. -/
def clip (l : List ℕ) : List ℕ := l.map clipVal

/-- Accumulator of `get_abs_deviation`'s first statistics loop
(lines 468-522): running max/min with their indices, the five deviation-band
counters, and the loop index `i`. -/
structure DevState where
  max_val : ℚ
  min_val : ℚ
  max_val_idx : ℕ
  min_val_idx : ℕ
  num_dev_10p : ℕ
  num_dev_25p : ℕ
  num_dev_50p : ℕ
  num_dev_75p : ℕ
  num_dev_rst : ℕ
  idx : ℕ
deriving DecidableEq

/-- Initial accumulator: `max_val = 0`, `min_val = DBL_MAX`, indices 0. -/
def initState : DevState :=
  { max_val := 0, min_val := dblMax, max_val_idx := 0, min_val_idx := 0,
    num_dev_10p := 0, num_dev_25p := 0, num_dev_50p := 0, num_dev_75p := 0,
    num_dev_rst := 0, idx := 0 }

/-- The min/max tracking branch of the loop body: a value updates `max` if
strictly greater than the running max, otherwise updates `min` if strictly
less than the running min (`if/else if`, so never both). -/
def stepMinMax (s : DevState) (v : ℕ) : DevState :=
  if s.max_val < (v : ℚ) then
    { s with max_val := (v : ℚ), max_val_idx := s.idx }
  else if (v : ℚ) < s.min_val then
    { s with min_val := (v : ℚ), min_val_idx := s.idx }
  else s

/-- The band-classification branch of the loop body: the absolute deviation
`ad = |v - avg|` is tested against the cutoffs in order (10%, 25%, 50%,
75% of the global average), the first matching band's counter
is incremented, the rest go to `num_dev_rst`. -/
def stepBands (dev10 dev25 dev50 dev75 avg : ℚ) (s : DevState) (v : ℕ) :
    DevState :=
  let ad := |(v : ℚ) - avg|
  if ad ≤ dev10 then { s with num_dev_10p := s.num_dev_10p + 1 }
  else if ad ≤ dev25 then { s with num_dev_25p := s.num_dev_25p + 1 }
  else if ad ≤ dev50 then { s with num_dev_50p := s.num_dev_50p + 1 }
  else if ad ≤ dev75 then { s with num_dev_75p := s.num_dev_75p + 1 }
  else { s with num_dev_rst := s.num_dev_rst + 1 }

/-- One iteration of `get_abs_deviation`'s first loop over the clipped
array. -/
def devStep (avg : ℚ) (s : DevState) (v : ℕ) : DevState :=
  let s1 := stepMinMax s v
  let s2 := stepBands (0.1 * avg) (0.25 * avg) (0.5 * avg) (0.75 * avg)
      avg s1 v
  { s2 with idx := s2.idx + 1 }

/-- `sum_stdev` of `get_abs_deviation`: the sum of squared deviations of the
clipped samples from the global average (the source accumulates
`ad*ad` with `ad = absd(v - avg)`, which equals `(v - avg)^2`). -/
def sumStdev (c : List ℕ) (avg : ℚ) : ℚ :=
  (c.map (fun v => ((v : ℚ) - avg) ^ 2)).sum

/-- The fields of `abs_deviation_t` needed by the claims; `std_dev` is
`sqrt (sum_stdev / num_vals)`. -/
structure AbsDeviation where
  num_vals : ℕ
  avg : ℚ
  max_val : ℚ
  min_val : ℚ
  max_val_idx : ℕ
  min_val_idx : ℕ
  num_dev_10p : ℕ
  num_dev_25p : ℕ
  num_dev_50p : ℕ
  num_dev_75p : ℕ
  num_dev_rst : ℕ
  sum_stdev : ℚ
deriving DecidableEq

/-- `get_abs_deviation` (lines 451-599, the claim-relevant part): clips the
array in place, computes the global average over the clipped values, and
runs the min/max/band loop.  Returns the summary together with the mutated
(clipped) array.  With `num_vals = 0` the source's `avg` is NaN (0/0); in
`ℚ` the division yields 0, and no claim reads `avg` of an empty array
except through `avgOf`, which models the NaN case explicitly. -/
def get_abs_deviation (vals : List ℕ) : AbsDeviation × List ℕ :=
  let c := clip vals
  let n := vals.length
  let avg : ℚ := (c.sum : ℚ) / (n : ℚ)
  let s := c.foldl (devStep avg) initState
  ({ num_vals := n, avg := avg,
     max_val := s.max_val, min_val := s.min_val,
     max_val_idx := s.max_val_idx, min_val_idx := s.min_val_idx,
     num_dev_10p := s.num_dev_10p, num_dev_25p := s.num_dev_25p,
     num_dev_50p := s.num_dev_50p, num_dev_75p := s.num_dev_75p,
     num_dev_rst := s.num_dev_rst,
     sum_stdev := sumStdev c avg }, c)

/-- `median_non_zero_ticks` (lines 88-133): filter out zero samples, sort
ascending (`qsort` with `ticks_compare`), and take the middle element, or
the average of the two middle elements when the retained count is even.
`none` models the NaN returned when no non-zero sample exists (which also
covers `num_entries == 0`).  Allocation failure (the other NaN source) has
no counterpart in the embedding. -/
def medianNonZeroTicks (l : List ℕ) : Option ℚ :=
  let scratch := l.filter (fun v => v != 0)
  if scratch.length = 0 then none
  else
    let s := List.insertionSort (· ≤ ·) scratch
    let cnt := s.length
    if cnt % 2 = 0 then
      some ((((s.getD (cnt / 2 - 1) 0 : ℕ) : ℚ) +
             ((s.getD (cnt / 2) 0 : ℕ) : ℚ)) / 2)
    else
      some ((s.getD (cnt / 2) 0 : ℕ) : ℚ)

/-- `measure_minimum_tick_delta` (lines 45-69) over the oracle list of raw
`end - start` deltas observed: keep the smallest strictly positive delta,
returning 0 when none was seen (`best` still `UINT64_MAX`). -/
def measure_minimum_tick_delta (deltas : List ℕ) : ℕ :=
  let best := deltas.foldl
    (fun best d => if 0 < d ∧ d < best then d else best) (2 ^ 64 - 1)
  if best = 2 ^ 64 - 1 then 0 else best

/-- The calibration round's average as the source sees it: NaN (`none`)
when the capacity is 0 (0/0), otherwise the finite rational average of the
clipped samples. -/
def avgOf (r : List ℕ) : Option ℚ :=
  if r.length = 0 then none else some (get_abs_deviation r).1.avg

/-- The retry test of `pfd_store_init` (lines 190-196):
`std_pp = 100*(1 - (avg - std_dev)/avg)` is computed only when `avg` is
finite and non-zero (otherwise it stays NaN and `NaN > 3` is false), and
the round is retried when `std_pp > PFD_CORRECTION_CONF = 3`.  For
`avg > 0` this is equivalent to `9*avg^2 < 10000*(sum_stdev/n)`, the
executable form used here; the equivalence with the `sqrt` formula is
proved in the C5 theorem. -/
def retryCondition (r : List ℕ) : Bool :=
  match avgOf r with
  | none => false
  | some a =>
    if a = 0 then false
    else decide (9 * a ^ 2 <
      10000 * ((get_abs_deviation r).1.sum_stdev / (r.length : ℚ)))

/-- Outcome of the measurement/retry phase of `pfd_store_init`: the value
of `ad.avg` after the retry block (`none` = NaN), the number of measurement
rounds executed, the number of `Recalculating` warnings printed, and which
fallback tier (median / architecture default) was used. -/
structure CalibOutcome where
  avg : Option ℚ
  attempts : ℕ
  retryWarnings : ℕ
  usedMedian : Bool
  usedDefault : Bool
deriving DecidableEq

/-- A round accepted by the quality gate: `ad.avg` is kept as computed. -/
def acceptOutcome (r : List ℕ) : CalibOutcome :=
  { avg := avgOf r, attempts := 1, retryWarnings := 0,
    usedMedian := false, usedDefault := false }

/-- The `print_warning++ == 1` diagnostic: one warning is printed exactly
when the pre-increment counter equals 1 (the second failed attempt). -/
def warnOf (pw : ℕ) : ℕ := if pw = 1 then 1 else 0

/-- The retries-exhausted fallback (lines 208-244): take the median of the
non-zero samples of the (already clipped, in place) last round; if it is
finite and positive use it, otherwise use the architecture default, which
for the unknown-architecture build modelled here is
`PFD_CONSERVATIVE_DEFAULT = 32`. -/
def fallbackOutcome (r : List ℕ) (w : ℕ) : CalibOutcome :=
  match medianNonZeroTicks (clip r) with
  | some m =>
    if 0 < m then
      { avg := some m, attempts := 1, retryWarnings := w,
        usedMedian := true, usedDefault := false }
    else
      { avg := some PFD_CONSERVATIVE_DEFAULT, attempts := 1,
        retryWarnings := w, usedMedian := false, usedDefault := true }
  | none =>
    { avg := some PFD_CONSERVATIVE_DEFAULT, attempts := 1,
      retryWarnings := w, usedMedian := false, usedDefault := true }

/-- The `retry:` loop of `pfd_store_init` with `tries` as remaining fuel
(the source starts with `tries = 10` and tests `tries-- > 0` after each
failed round, so a failing run performs 11 rounds in total).  `rounds k` is
the oracle sample list produced by measurement round `k`; `pw` is the
`print_warning` counter. -/
def calibAux (rounds : ℕ → List ℕ) : ℕ → ℕ → ℕ → CalibOutcome
  | 0, k, pw =>
    if retryCondition (rounds k) then fallbackOutcome (rounds k) (warnOf pw)
    else acceptOutcome (rounds k)
  | tries + 1, k, pw =>
    if retryCondition (rounds k) then
      let rest := calibAux rounds tries (k + 1) (pw + 1)
      { rest with attempts := rest.attempts + 1,
                  retryWarnings := rest.retryWarnings + warnOf pw }
    else acceptOutcome (rounds k)

/-- The sanitizing chain of lines 250-290: non-finite average → conservative
default; `avg ≤ 0` → direct minimum-tick-delta measurement if positive,
else the conservative default; `avg < 1` → clamp to 1; otherwise keep. -/
def sanitizeAvg (a? : Option ℚ) (md1 : ℕ) : ℚ :=
  match a? with
  | none => PFD_CONSERVATIVE_DEFAULT
  | some a =>
    if a ≤ 0 then
      (if 0 < md1 then (md1 : ℚ) else PFD_CONSERVATIVE_DEFAULT)
    else if a < 1 then 1
    else a

/-- Lines 292-314: clamp averages at `(double) UINT64_MAX = 2^64` to
`UINT64_MAX`, otherwise round to nearest by truncating `avg + 0.5`, and
clamp a rounded 0 to 1. -/
def roundToCorrection (ca : ℚ) : ℕ :=
  if (2 : ℚ) ^ 64 ≤ ca then 2 ^ 64 - 1
  else
    let c := (⌊ca + 1 / 2⌋).toNat
    if c = 0 then 1 else c

/-- The final guard of lines 331-365: if the correction is still 0
(non-positive as an unsigned value), retry the direct measurement, then
fall back to the rounded conservative default, clamping once more to 1. -/
def finalGuard (corr md2 : ℕ) : ℕ :=
  if corr = 0 then
    if 0 < md2 then md2
    else
      let c := (⌊PFD_CONSERVATIVE_DEFAULT + 1 / 2⌋).toNat
      if c = 0 then 1 else c
  else corr

/-- The observable result of one `pfd_store_init` call. -/
structure CalibResult where
  correction : ℕ
  attempts : ℕ
  retryWarnings : ℕ
  usedMedian : Bool
  usedDefault : Bool
deriving DecidableEq

/-- `pfd_store_init` (lines 135-372), calibration decision logic: run the
retry loop with fuel 10, sanitize the resulting average, round it to the
integer correction and apply the final guard.  `d1` and `d2` are the delta
oracles of the two potential `measure_minimum_tick_delta(64)` calls. -/
def pfd_store_init (rounds : ℕ → List ℕ) (d1 d2 : List ℕ) : CalibResult :=
  let t := calibAux rounds 10 0 0
  let ca := sanitizeAvg t.avg (measure_minimum_tick_delta d1)
  let corr := roundToCorrection ca
  { correction := finalGuard corr (measure_minimum_tick_delta d2),
    attempts := t.attempts, retryWarnings := t.retryWarnings,
    usedMedian := t.usedMedian, usedDefault := t.usedDefault }

/-- The calibration sample round of the spec's first end-to-end scenario:
`[20,20,20,20,20,20,20,20,21,19]`. -/
def c8samples : List ℕ := [20, 20, 20, 20, 20, 20, 20, 20, 21, 19]

/-- Total of the five deviation-band counters of an accumulator state. -/
def countsSum (s : DevState) : ℕ :=
  s.num_dev_10p + s.num_dev_25p + s.num_dev_50p + s.num_dev_75p +
    s.num_dev_rst

/-- Invariant of the min/max tracking over the processed part `seen` of the
clipped array: the loop index equals the number of processed entries; the
running max either still has its seed (0, index 0, in which case every
processed entry was 0) or records the value and index of a processed entry;
the running min either still has its seed (`DBL_MAX`, index 0) or records
the value and index of a processed entry. -/
def InvMinMax (seen : List ℕ) (s : DevState) : Prop :=
  s.idx = seen.length ∧
  ((s.max_val = 0 ∧ s.max_val_idx = 0 ∧ ∀ v ∈ seen, v = 0) ∨
    (s.max_val_idx < seen.length ∧
      ((seen.getD s.max_val_idx 0 : ℕ) : ℚ) = s.max_val)) ∧
  ((s.min_val = dblMax ∧ s.min_val_idx = 0) ∨
    (s.min_val_idx < seen.length ∧
      ((seen.getD s.min_val_idx 0 : ℕ) : ℚ) = s.min_val))

/-! ### Basic list and clipping lemmas -/

theorem gad_snd (l : List ℕ) : (get_abs_deviation l).2 = clip l := rfl

theorem clipVal_le (v : ℕ) : clipVal v ≤ PFD_VAL_UP_LIMIT := by
  unfold clipVal PFD_VAL_UP_LIMIT
  split
  · exact Nat.zero_le _
  · omega

theorem clipVal_eq_or (v : ℕ) : clipVal v = v ∨ clipVal v = 0 := by
  unfold clipVal
  split
  · exact Or.inr rfl
  · exact Or.inl rfl

theorem clipVal_ne_iff (v : ℕ) : clipVal v ≠ v ↔ 1500 < v := by
  unfold clipVal PFD_VAL_UP_LIMIT
  split
  · next h =>
    constructor
    · intro _
      rcases h with h | h
      · calc 1500 < 2 ^ 63 := by norm_num
          _ ≤ v := h
      · exact h
    · intro h1500
      omega
  · next h =>
    push_neg at h
    constructor
    · intro hc
      exact absurd rfl hc
    · intro h1500
      exact absurd h1500 (by omega)

theorem clip_length (l : List ℕ) : (clip l).length = l.length :=
  List.length_map _ _

theorem getD_append_left (l₁ l₂ : List ℕ) (i : ℕ) (h : i < l₁.length) :
    (l₁ ++ l₂).getD i 0 = l₁.getD i 0 := by
  induction l₁ generalizing i with
  | nil => simp at h
  | cons a t ih =>
    cases i with
    | zero => rfl
    | succ j =>
      simp only [List.cons_append, List.getD]
      exact ih j (by simpa using h)

theorem getD_append_self (l : List ℕ) (v : ℕ) :
    (l ++ [v]).getD l.length 0 = v := by
  induction l with
  | nil => rfl
  | cons a t ih =>
    simp only [List.cons_append, List.length_cons, List.getD]
    exact ih

theorem getD_map_clipVal (l : List ℕ) (i : ℕ) (h : i < l.length) :
    (l.map clipVal).getD i 0 = clipVal (l.getD i 0) := by
  induction l generalizing i with
  | nil => simp at h
  | cons a t ih =>
    cases i with
    | zero => rfl
    | succ j =>
      simp only [List.map_cons, List.getD]
      exact ih j (by simpa using h)

/-! ### C3: the clipping pass only zeroes out-of-range entries -/

/-- C3: for every sample array and index, the entry after `analyze`
(`get_abs_deviation`'s in-place clipping) is either the original value or
zero, and it differs from the original exactly when the original value was
outside `[0, 1500]` (which, in the 64-bit unsigned domain, subsumes the
values whose signed reinterpretation is negative); an in-range entry is
never modified. -/
theorem c3_clip_in_place (l : List ℕ) (i : ℕ) (h : i < l.length) :
    ((get_abs_deviation l).2.getD i 0 = l.getD i 0 ∨
      (get_abs_deviation l).2.getD i 0 = 0) ∧
    ((get_abs_deviation l).2.getD i 0 ≠ l.getD i 0 ↔ 1500 < l.getD i 0) := by
  rw [gad_snd]
  unfold clip
  rw [getD_map_clipVal l i h]
  exact ⟨clipVal_eq_or _, clipVal_ne_iff _⟩

theorem c3_clip_in_place_witness :
    (0 : ℕ) < [7, 2000].length ∧
    (((get_abs_deviation [7, 2000]).2.getD 0 0 = [7, 2000].getD 0 0 ∨
      (get_abs_deviation [7, 2000]).2.getD 0 0 = 0) ∧
    ((get_abs_deviation [7, 2000]).2.getD 0 0 ≠ [7, 2000].getD 0 0 ↔
      1500 < [7, 2000].getD 0 0)) :=
  ⟨by norm_num, c3_clip_in_place [7, 2000] 0 (by norm_num)⟩

/-! ### C4: the five deviation bands partition the samples -/

theorem countsSum_stepBands (d1 d2 d3 d4 a : ℚ) (s : DevState) (v : ℕ) :
    countsSum (stepBands d1 d2 d3 d4 a s v) = countsSum s + 1 := by
  simp only [stepBands, countsSum]
  split_ifs <;> simp <;> omega

theorem countsSum_stepMinMax (s : DevState) (v : ℕ) :
    countsSum (stepMinMax s v) = countsSum s := by
  unfold stepMinMax countsSum
  split
  · rfl
  · split <;> rfl

theorem countsSum_devStep (a : ℚ) (s : DevState) (v : ℕ) :
    countsSum (devStep a s v) = countsSum s + 1 := by
  unfold devStep
  show countsSum (stepBands _ _ _ _ _ (stepMinMax s v) v) = _
  rw [countsSum_stepBands, countsSum_stepMinMax]

theorem countsSum_foldl (a : ℚ) :
    ∀ (l : List ℕ) (s : DevState),
      countsSum (List.foldl (devStep a) s l) = countsSum s + l.length := by
  intro l
  induction l with
  | nil => intro s; simp
  | cons v t ih =>
    intro s
    rw [List.foldl_cons, ih (devStep a s v), countsSum_devStep]
    simp only [List.length_cons]
    omega

/-- C4: for every input array, the five band counters of
`get_abs_deviation` sum exactly to the number of samples: the deviation
bands partition the samples, each sample counted in exactly one band. -/
theorem c4_bands_partition (l : List ℕ) :
    (get_abs_deviation l).1.num_dev_10p + (get_abs_deviation l).1.num_dev_25p +
      (get_abs_deviation l).1.num_dev_50p + (get_abs_deviation l).1.num_dev_75p +
      (get_abs_deviation l).1.num_dev_rst = (get_abs_deviation l).1.num_vals ∧
    (get_abs_deviation l).1.num_vals = l.length := by
  refine ⟨?_, rfl⟩
  show countsSum ((clip l).foldl
    (devStep (((clip l).sum : ℚ) / (l.length : ℚ))) initState) = l.length
  rw [countsSum_foldl, clip_length]
  simp [countsSum, initState]

/-! ### C9: the global average is within the clipped range -/

theorem clip_sum_le (l : List ℕ) : (clip l).sum ≤ 1500 * l.length := by
  induction l with
  | nil => simp [clip]
  | cons a t ih =>
    have ha : clipVal a ≤ 1500 := clipVal_le a
    simp only [clip, List.map_cons, List.sum_cons, List.length_cons]
    calc clipVal a + (clip t).sum ≤ 1500 + 1500 * t.length := by
          exact Nat.add_le_add ha ih
      _ = 1500 * (t.length + 1) := by ring

theorem gad_avg (l : List ℕ) :
    (get_abs_deviation l).1.avg = ((clip l).sum : ℚ) / (l.length : ℚ) := rfl

/-- C9: for every non-empty sample array the global average computed by
`get_abs_deviation` lies in `[0, 1500]` (every contributing value has been
clipped into that range), and consequently the four band cutoffs (10%, 25%,
50%, 75% of the average) are non-negative (and, being rationals of the
model, finite). -/
theorem c9_avg_in_range (l : List ℕ) (h : 0 < l.length) :
    0 ≤ (get_abs_deviation l).1.avg ∧ (get_abs_deviation l).1.avg ≤ 1500 ∧
    0 ≤ 0.1 * (get_abs_deviation l).1.avg ∧
    0 ≤ 0.25 * (get_abs_deviation l).1.avg ∧
    0 ≤ 0.5 * (get_abs_deviation l).1.avg ∧
    0 ≤ 0.75 * (get_abs_deviation l).1.avg := by
  rw [gad_avg]
  have hn : (0 : ℚ) < (l.length : ℚ) := by exact_mod_cast h
  have h0 : (0 : ℚ) ≤ ((clip l).sum : ℚ) / (l.length : ℚ) :=
    div_nonneg (by positivity) (le_of_lt hn)
  have hsum : ((clip l).sum : ℚ) ≤ 1500 * (l.length : ℚ) := by
    exact_mod_cast clip_sum_le l
  have h1500 : ((clip l).sum : ℚ) / (l.length : ℚ) ≤ 1500 := by
    rw [div_le_iff₀ hn]
    linarith
  refine ⟨h0, h1500, ?_, ?_, ?_, ?_⟩ <;> positivity

theorem c9_avg_in_range_witness :
    (0 : ℕ) < [3, 9].length ∧
    (0 ≤ (get_abs_deviation [3, 9]).1.avg ∧
     (get_abs_deviation [3, 9]).1.avg ≤ 1500 ∧
     0 ≤ 0.1 * (get_abs_deviation [3, 9]).1.avg ∧
     0 ≤ 0.25 * (get_abs_deviation [3, 9]).1.avg ∧
     0 ≤ 0.5 * (get_abs_deviation [3, 9]).1.avg ∧
     0 ≤ 0.75 * (get_abs_deviation [3, 9]).1.avg) :=
  ⟨by norm_num, c9_avg_in_range [3, 9] (by norm_num)⟩

/-! ### C1: the published correction is always strictly positive -/

/-- C1: after every `pfd_store_init` call — for every capacity, every
sequence of raw calibration sample rounds (including degenerate all-zero
rounds) and every outcome of the direct tick-delta measurements — the
published correction is strictly greater than 0, so the final
`assert(pfd_correction > 0)` never fires and a non-positive correction is
never left behind. -/
theorem c1_correction_positive (rounds : ℕ → List ℕ) (d1 d2 : List ℕ) :
    0 < (pfd_store_init rounds d1 d2).correction := by
  show 0 < finalGuard
    (roundToCorrection (sanitizeAvg (calibAux rounds 10 0 0).avg
      (measure_minimum_tick_delta d1)))
    (measure_minimum_tick_delta d2)
  generalize roundToCorrection (sanitizeAvg (calibAux rounds 10 0 0).avg
      (measure_minimum_tick_delta d1)) = corr
  generalize measure_minimum_tick_delta d2 = md2
  simp only [finalGuard]
  split_ifs <;> omega

theorem c1_correction_positive_witness :
    0 < (pfd_store_init (fun _ => []) [] []).correction :=
  c1_correction_positive (fun _ => []) [] []

/-! ### Median of the non-zero samples: C7 and C10 -/

theorem med_00503 : medianNonZeroTicks [0, 0, 5, 0, 3] = some 4 := by
  have h1 : List.filter (fun v => v != 0) [0, 0, 5, 0, 3] = [5, 3] := rfl
  have h2 : List.insertionSort (· ≤ ·) [5, 3] = [3, 5] := by decide
  simp only [medianNonZeroTicks, h1, h2]
  norm_num

theorem median_none_iff (l : List ℕ) :
    medianNonZeroTicks l = none ↔ ∀ x ∈ l, x = 0 := by
  constructor
  · intro h
    simp only [medianNonZeroTicks] at h
    split at h
    · next hlen =>
      intro x hx
      by_contra hx0
      have hmem : x ∈ l.filter (fun v => v != 0) := by
        rw [List.mem_filter]
        exact ⟨hx, by simpa using hx0⟩
      rw [List.length_eq_zero] at hlen
      simp [hlen] at hmem
    · next hlen =>
      split at h <;> simp at h
  · intro hall
    have hfil : l.filter (fun v => v != 0) = [] := by
      rw [List.filter_eq_nil_iff]
      intro a ha
      simpa using hall a ha
    simp [medianNonZeroTicks, hfil]

theorem getD_mem (l : List ℕ) (i : ℕ) (h : i < l.length) :
    l.getD i 0 ∈ l := by
  induction l generalizing i with
  | nil => simp at h
  | cons a t ih =>
    cases i with
    | zero => exact List.mem_cons_self a t
    | succ j =>
      exact List.mem_cons_of_mem a (ih j (by simpa using h))

theorem median_ge_one (l : List ℕ) (m : ℚ)
    (h : medianNonZeroTicks l = some m) : 1 ≤ m := by
  simp only [medianNonZeroTicks] at h
  split at h
  · simp at h
  · next hlen =>
    have hperm := List.perm_insertionSort (· ≤ ·) (l.filter (fun v => v != 0))
    have hlen2 : (List.insertionSort (· ≤ ·) (l.filter (fun v => v != 0))).length
        = (l.filter (fun v => v != 0)).length := hperm.length_eq
    have hone : ∀ x ∈ List.insertionSort (· ≤ ·) (l.filter (fun v => v != 0)),
        1 ≤ x := by
      intro x hx
      have hxf : x ∈ l.filter (fun v => v != 0) := hperm.mem_iff.mp hx
      have hxne := (List.mem_filter.mp hxf).2
      simp only [bne_iff_ne, ne_eq] at hxne
      omega
    set s := List.insertionSort (· ≤ ·) (l.filter (fun v => v != 0)) with hs
    split at h
    · next heven =>
      have h2 : 2 ≤ s.length := by omega
      have hi1 : s.length / 2 - 1 < s.length := by omega
      have hi2 : s.length / 2 < s.length := by omega
      have ha := hone _ (getD_mem s _ hi1)
      have hb := hone _ (getD_mem s _ hi2)
      injection h with h
      rw [← h]
      have ha2 : (1 : ℚ) ≤ (s.getD (s.length / 2 - 1) 0 : ℚ) := by
        exact_mod_cast ha
      have hb2 : (1 : ℚ) ≤ (s.getD (s.length / 2) 0 : ℚ) := by
        exact_mod_cast hb
      linarith
    · next hodd =>
      have hi : s.length / 2 < s.length := by omega
      have ha := hone _ (getD_mem s _ hi)
      injection h with h
      rw [← h]
      exact_mod_cast ha

/-- C7: the median-of-non-zero-samples helper filters out the zeros, sorts
the rest and returns the middle element (average of the two middle elements
for an even count): on `[0,0,5,0,3]` it returns `4.0`, and it returns the
undefined value (NaN, modelled as `none`) exactly when every sample is zero
(which covers the all-zero and empty inputs; the allocation-failure NaN of
the source has no model counterpart). -/
theorem c7_median_behaviour :
    medianNonZeroTicks [0, 0, 5, 0, 3] = some 4 ∧
    (∀ l : List ℕ, medianNonZeroTicks l = none ↔ ∀ x ∈ l, x = 0) :=
  ⟨med_00503, median_none_iff⟩

theorem c7_median_behaviour_witness :
    medianNonZeroTicks [0, 0, 0] = none :=
  (c7_median_behaviour.2 [0, 0, 0]).mpr (by simp)

theorem gad_sum_stdev (l : List ℕ) :
    (get_abs_deviation l).1.sum_stdev
      = sumStdev (clip l) (((clip l).sum : ℚ) / (l.length : ℚ)) := rfl

theorem sanitize_id (m : ℚ) (hm : 1 ≤ m) (md1 : ℕ) :
    sanitizeAvg (some m) md1 = m := by
  simp only [sanitizeAvg]
  rw [if_neg (by linarith), if_neg (by linarith)]

theorem avg13 : avgOf [1, 3] = some 2 := by
  have hc : clip [1, 3] = [1, 3] := rfl
  simp only [avgOf, gad_avg, hc]
  norm_num

theorem retry13 : retryCondition [1, 3] = true := by
  have hc : clip [1, 3] = [1, 3] := rfl
  simp only [retryCondition, avg13, gad_sum_stdev, hc]
  rw [if_neg (by norm_num)]
  rw [decide_eq_true_eq]
  simp only [sumStdev, List.map_cons, List.map_nil, List.sum_cons,
    List.sum_nil]
  norm_num

theorem med13 : medianNonZeroTicks [1, 3] = some 2 := by
  have h1 : List.filter (fun v => v != 0) [1, 3] = [1, 3] := rfl
  have h2 : List.insertionSort (· ≤ ·) [1, 3] = [1, 3] := by decide
  simp only [medianNonZeroTicks, h1, h2]
  norm_num

theorem calib13_usedMedian :
    (calibAux (fun _ => [1, 3]) 0 0 0).usedMedian = true := by
  have hc : clip [1, 3] = [1, 3] := rfl
  simp only [calibAux, retry13, if_true, fallbackOutcome, hc, med13]
  norm_num

/-- C10: the median-of-non-zero-samples helper returns either NaN or a
value at least 1 (every retained sample is a non-zero unsigned integer), and
whenever calibration's median fallback tier applies it installs an average
that is at least 1, on which the sanitizing chain is the identity — in
particular the sub-1 clamping branch is never triggered by the median
tier. -/
theorem c10_median_tier_at_least_one :
    (∀ (l : List ℕ) (m : ℚ), medianNonZeroTicks l = some m → 1 ≤ m) ∧
    (∀ (rounds : ℕ → List ℕ) (t k pw : ℕ),
      (calibAux rounds t k pw).usedMedian = true →
      ∃ m, (calibAux rounds t k pw).avg = some m ∧ 1 ≤ m ∧
        ∀ md1, sanitizeAvg (some m) md1 = m) := by
  refine ⟨median_ge_one, ?_⟩
  intro rounds t
  induction t with
  | zero =>
    intro k pw h
    simp only [calibAux] at h ⊢
    by_cases hr : retryCondition (rounds k) = true
    · rw [if_pos hr] at h ⊢
      cases hm : medianNonZeroTicks (clip (rounds k)) with
      | none => simp [fallbackOutcome, hm, acceptOutcome] at h
      | some m =>
        have hm1 : 1 ≤ m := median_ge_one _ m hm
        by_cases h0 : 0 < m
        · refine ⟨m, ?_, hm1, fun md1 => sanitize_id m hm1 md1⟩
          simp [fallbackOutcome, hm, h0]
        · simp [fallbackOutcome, hm, h0] at h
    · rw [if_neg hr] at h
      simp [acceptOutcome] at h
  | succ t ih =>
    intro k pw h
    simp only [calibAux] at h ⊢
    by_cases hr : retryCondition (rounds k) = true
    · rw [if_pos hr] at h ⊢
      obtain ⟨m, hm, hm1, hs⟩ := ih (k + 1) (pw + 1) h
      exact ⟨m, hm, hm1, hs⟩
    · rw [if_neg hr] at h
      simp [acceptOutcome] at h

theorem c10_median_tier_at_least_one_witness :
    (1 : ℚ) ≤ 4 ∧
    ∃ m, (calibAux (fun _ => [1, 3]) 0 0 0).avg = some m ∧ 1 ≤ m ∧
      ∀ md1, sanitizeAvg (some m) md1 = m :=
  ⟨c10_median_tier_at_least_one.1 [0, 0, 5, 0, 3] 4 med_00503,
   c10_median_tier_at_least_one.2 (fun _ => [1, 3]) 0 0 0 calib13_usedMedian⟩

/-! ### C2: calibration on all-zero sample rounds -/

theorem measure_lt (d : List ℕ) : measure_minimum_tick_delta d < 2 ^ 64 := by
  have hinv : ∀ (l : List ℕ) (b : ℕ), b ≤ 2 ^ 64 - 1 →
      l.foldl (fun best x => if 0 < x ∧ x < best then x else best) b
        ≤ 2 ^ 64 - 1 := by
    intro l
    induction l with
    | nil => intro b hb; exact hb
    | cons a t ih =>
      intro b hb
      rw [List.foldl_cons]
      apply ih
      split_ifs with h
      · omega
      · exact hb
  have := hinv d (2 ^ 64 - 1) le_rfl
  simp only [measure_minimum_tick_delta]
  split_ifs with h
  · norm_num
  · omega

theorem floor_nat_half (k : ℕ) : ⌊(k : ℚ) + 1 / 2⌋ = (k : ℤ) := by
  rw [Int.floor_eq_iff]
  constructor
  · push_cast
    linarith
  · push_cast
    linarith

theorem roundToCorrection_nat (k : ℕ) (hlt : k < 2 ^ 64) (hpos : 0 < k) :
    roundToCorrection (k : ℚ) = k := by
  unfold roundToCorrection
  rw [if_neg]
  · rw [floor_nat_half, Int.toNat_natCast]
    rw [if_neg (by omega)]
  · push_neg
    calc ((k : ℚ)) < ((2 ^ 64 : ℕ) : ℚ) := by exact_mod_cast hlt
      _ = (2 : ℚ) ^ 64 := by push_cast; ring

theorem roundToCorrection_32 : roundToCorrection (32 : ℚ) = 32 := by
  unfold roundToCorrection
  rw [if_neg (by norm_num)]
  have h32 : ⌊(32 : ℚ) + 1 / 2⌋ = (32 : ℤ) := by
    have := floor_nat_half 32
    exact_mod_cast this
  rw [h32]
  rfl

theorem clipVal_zero : clipVal 0 = 0 := by decide

theorem clip_all_zero (r : List ℕ) (h : ∀ x ∈ r, x = 0) :
    (clip r).sum = 0 := by
  apply List.sum_eq_zero
  intro x hx
  obtain ⟨y, hy, hxy⟩ := List.mem_map.mp hx
  rw [← hxy, h y hy, clipVal_zero]

theorem avgOf_all_zero (r : List ℕ) (hlen : 0 < r.length)
    (h : ∀ x ∈ r, x = 0) : avgOf r = some 0 := by
  simp only [avgOf, gad_avg]
  rw [if_neg (by omega), clip_all_zero r h]
  norm_num

theorem retry_all_zero (r : List ℕ) (h : ∀ x ∈ r, x = 0) :
    retryCondition r = false := by
  by_cases hlen : r.length = 0
  · simp [retryCondition, avgOf, hlen]
  · have := avgOf_all_zero r (by omega) h
    simp [retryCondition, this]

theorem calib_zero (rounds : ℕ → List ℕ) (d1 d2 : List ℕ)
    (hlen : 0 < (rounds 0).length) (h0 : ∀ x ∈ rounds 0, x = 0) :
    pfd_store_init rounds d1 d2 =
      { correction := if 0 < measure_minimum_tick_delta d1
          then measure_minimum_tick_delta d1 else 32,
        attempts := 1, retryWarnings := 0,
        usedMedian := false, usedDefault := false } := by
  have hrc : retryCondition (rounds 0) = false := retry_all_zero _ h0
  have hacc : calibAux rounds 10 0 0 = acceptOutcome (rounds 0) := by
    rw [show (10 : ℕ) = 9 + 1 from rfl]
    simp [calibAux, hrc]
  have havg : avgOf (rounds 0) = some 0 := avgOf_all_zero _ hlen h0
  have hsan : sanitizeAvg (some 0) (measure_minimum_tick_delta d1) =
      (if 0 < measure_minimum_tick_delta d1
        then ((measure_minimum_tick_delta d1 : ℕ) : ℚ)
        else PFD_CONSERVATIVE_DEFAULT) := by
    simp only [sanitizeAvg]
    rw [if_pos le_rfl]
  unfold pfd_store_init
  rw [hacc]
  simp only [acceptOutcome, havg, hsan]
  by_cases hmd : 0 < measure_minimum_tick_delta d1
  · rw [if_pos hmd, if_pos hmd]
    rw [roundToCorrection_nat _ (measure_lt d1) hmd]
    unfold finalGuard
    rw [if_neg (by omega)]
  · rw [if_neg hmd, if_neg hmd]
    show CalibResult.mk
      (finalGuard (roundToCorrection PFD_CONSERVATIVE_DEFAULT)
        (measure_minimum_tick_delta d2)) 1 0 false false = _
    have : roundToCorrection PFD_CONSERVATIVE_DEFAULT = 32 :=
      roundToCorrection_32
    rw [this]
    unfold finalGuard
    rw [if_neg (by omega)]

/-- C2 (amended): when every sample of round 0 is 0 (and the capacity is
positive), the average is 0, the quality percentage stays NaN, and since
the source's `NaN > 3` comparison is false the round is accepted
immediately: there is exactly one measurement round, no retries, no
warnings, and neither the median nor the architecture-default fallback
runs.  The correction then comes from the `avg <= 0` sanitizing branch: it
is the direct minimum-tick-delta measurement when that is positive, and the
conservative constant 32 otherwise. -/
theorem c2_all_zero_behaviour (rounds : ℕ → List ℕ) (d1 d2 : List ℕ)
    (hlen : 0 < (rounds 0).length) (h0 : ∀ x ∈ rounds 0, x = 0) :
    (pfd_store_init rounds d1 d2).attempts = 1 ∧
    (pfd_store_init rounds d1 d2).retryWarnings = 0 ∧
    (pfd_store_init rounds d1 d2).usedMedian = false ∧
    (pfd_store_init rounds d1 d2).usedDefault = false ∧
    (pfd_store_init rounds d1 d2).correction =
      (if 0 < measure_minimum_tick_delta d1
        then measure_minimum_tick_delta d1 else 32) := by
  rw [calib_zero rounds d1 d2 hlen h0]
  exact ⟨rfl, rfl, rfl, rfl, rfl⟩

theorem c2_all_zero_behaviour_witness :
    (pfd_store_init (fun _ => List.replicate 4 0) [] []).attempts = 1 ∧
    (pfd_store_init (fun _ => List.replicate 4 0) [] []).retryWarnings = 0 ∧
    (pfd_store_init (fun _ => List.replicate 4 0) [] []).usedMedian = false ∧
    (pfd_store_init (fun _ => List.replicate 4 0) [] []).usedDefault = false ∧
    (pfd_store_init (fun _ => List.replicate 4 0) [] []).correction =
      (if 0 < measure_minimum_tick_delta [] then measure_minimum_tick_delta []
        else 32) :=
  c2_all_zero_behaviour (fun _ => List.replicate 4 0) [] []
    (by simp) (by simp [List.eq_of_mem_replicate])

/-- C2 counterexample: with every calibration sample 0 and a direct
tick-delta measurement of 7, the final correction is 7 (not 32), only one
measurement round runs (the retries are never exhausted), and the
median/architecture fallbacks are never reached — contradicting the claimed
`retries exhaust, median undefined, correction = 32` chain. -/
theorem c2_counterexample :
    (pfd_store_init (fun _ => List.replicate 4 0) [7] []).correction = 7 ∧
    (pfd_store_init (fun _ => List.replicate 4 0) [7] []).attempts = 1 ∧
    (pfd_store_init (fun _ => List.replicate 4 0) [7] []).usedMedian = false ∧
    (pfd_store_init (fun _ => List.replicate 4 0) [7] []).usedDefault
      = false := by
  have h := calib_zero (fun _ => List.replicate 4 0) [7] []
    (by simp) (by simp [List.eq_of_mem_replicate])
  have h7 : measure_minimum_tick_delta [7] = 7 := by decide
  rw [h, h7]
  norm_num

/-! ### C8: the `[20,...,21,19]` end-to-end calibration scenario -/

theorem clip_c8 : clip c8samples = c8samples := rfl

theorem avg_c8 : (get_abs_deviation c8samples).1.avg = 20 := by
  rw [gad_avg, clip_c8]
  norm_num [c8samples]

theorem sum_stdev_c8 : (get_abs_deviation c8samples).1.sum_stdev = 2 := by
  rw [gad_sum_stdev, clip_c8]
  simp only [sumStdev, c8samples, List.map_cons, List.map_nil,
    List.sum_cons, List.sum_nil, List.length_cons, List.length_nil]
  norm_num

theorem retry_c8 : retryCondition c8samples = false := by
  have havg : avgOf c8samples = some 20 := by
    simp only [avgOf]
    rw [if_neg (by norm_num [c8samples]), avg_c8]
  simp only [retryCondition, havg]
  rw [if_neg (by norm_num)]
  rw [decide_eq_false_iff_not]
  rw [sum_stdev_c8]
  norm_num [c8samples]

/-- C8 (amended): for the calibration samples `[20,20,20,20,20,20,20,20,21,19]`
(average exactly 20, standard deviation `sqrt(0.2) ~ 0.45`), the quality
percentage is `100*std_dev/avg = sqrt(5) ~ 2.24`, which is BELOW the 3%
retry threshold, so the round is accepted on the first attempt with no
retries and no warnings, and the final correction rounds to 20 — regardless
of the tick-delta oracles, which are never consulted. -/
theorem c8_calibration (d1 d2 : List ℕ) :
    pfd_store_init (fun _ => c8samples) d1 d2 =
      { correction := 20, attempts := 1, retryWarnings := 0,
        usedMedian := false, usedDefault := false } := by
  have hacc : calibAux (fun _ => c8samples) 10 0 0
      = acceptOutcome c8samples := by
    rw [show (10 : ℕ) = 9 + 1 from rfl]
    simp [calibAux, retry_c8]
  have havg : avgOf c8samples = some 20 := by
    simp only [avgOf]
    rw [if_neg (by norm_num [c8samples]), avg_c8]
  unfold pfd_store_init
  rw [hacc]
  simp only [acceptOutcome, havg]
  rw [sanitize_id 20 (by norm_num) _]
  have h20 : roundToCorrection (20 : ℚ) = 20 := by
    have := roundToCorrection_nat 20 (by norm_num) (by norm_num)
    exact_mod_cast this
  rw [h20]
  unfold finalGuard
  rw [if_neg (by omega)]

/-- C8 counterexample: for the scenario's samples the quality percentage
`100*(1 - (avg - std_dev)/avg)` is strictly below 3, so it is neither
approximately 97 nor above the threshold: the round is accepted because the
quality metric is small, not because it is large — the claim inverts the
sense of the gate (the code retries when the metric exceeds 3). -/
theorem c8_counterexample :
    retryCondition c8samples = false ∧
    100 * (1 - (((get_abs_deviation c8samples).1.avg : ℝ)
        - Real.sqrt (((get_abs_deviation c8samples).1.sum_stdev : ℝ)
            / ((get_abs_deviation c8samples).1.num_vals : ℝ)))
        / ((get_abs_deviation c8samples).1.avg : ℝ)) < 3 := by
  refine ⟨retry_c8, ?_⟩
  rw [avg_c8, sum_stdev_c8]
  have hnum : (get_abs_deviation c8samples).1.num_vals = 10 := rfl
  rw [hnum]
  push_cast
  have hs : Real.sqrt ((2 : ℝ) / 10) < 3 / 5 := by
    rw [Real.sqrt_lt' (by norm_num)]
    norm_num
  have hs0 : 0 ≤ Real.sqrt ((2 : ℝ) / 10) := Real.sqrt_nonneg _
  nlinarith

/-! ### C5: the quality gate, retry budget and retry diagnostic -/

theorem gad_avg_nonneg (l : List ℕ) : 0 ≤ (get_abs_deviation l).1.avg := by
  rw [gad_avg]
  positivity

theorem gad_sum_stdev_nonneg (l : List ℕ) :
    0 ≤ (get_abs_deviation l).1.sum_stdev := by
  rw [gad_sum_stdev]
  apply List.sum_nonneg
  intro x hx
  obtain ⟨v, _, rfl⟩ := List.mem_map.mp hx
  positivity

theorem fallback_attempts (r : List ℕ) (w : ℕ) :
    (fallbackOutcome r w).attempts = 1 := by
  unfold fallbackOutcome
  cases medianNonZeroTicks (clip r) with
  | none => rfl
  | some m => by_cases h : 0 < m <;> simp [h]

theorem fallback_warnings (r : List ℕ) (w : ℕ) :
    (fallbackOutcome r w).retryWarnings = w := by
  unfold fallbackOutcome
  cases medianNonZeroTicks (clip r) with
  | none => rfl
  | some m => by_cases h : 0 < m <;> simp [h]

theorem calibAux_ok_zero (rounds : ℕ → List ℕ) (k pw : ℕ)
    (h : retryCondition (rounds k) = false) :
    calibAux rounds 0 k pw = acceptOutcome (rounds k) := by
  rw [calibAux, h]
  rfl

theorem calibAux_fail_zero (rounds : ℕ → List ℕ) (k pw : ℕ)
    (h : retryCondition (rounds k) = true) :
    calibAux rounds 0 k pw = fallbackOutcome (rounds k) (warnOf pw) := by
  rw [calibAux, h]
  rfl

theorem calibAux_ok_succ (rounds : ℕ → List ℕ) (t k pw : ℕ)
    (h : retryCondition (rounds k) = false) :
    calibAux rounds (t + 1) k pw = acceptOutcome (rounds k) := by
  rw [calibAux, h]
  rfl

theorem calibAux_fail_succ_attempts (rounds : ℕ → List ℕ) (t k pw : ℕ)
    (h : retryCondition (rounds k) = true) :
    (calibAux rounds (t + 1) k pw).attempts
      = (calibAux rounds t (k + 1) (pw + 1)).attempts + 1 := by
  rw [calibAux, h]
  rfl

theorem calibAux_fail_succ_warnings (rounds : ℕ → List ℕ) (t k pw : ℕ)
    (h : retryCondition (rounds k) = true) :
    (calibAux rounds (t + 1) k pw).retryWarnings
      = (calibAux rounds t (k + 1) (pw + 1)).retryWarnings + warnOf pw := by
  rw [calibAux, h]
  rfl

theorem attempts_le (rounds : ℕ → List ℕ) :
    ∀ t k pw, (calibAux rounds t k pw).attempts ≤ t + 1 := by
  intro t
  induction t with
  | zero =>
    intro k pw
    by_cases h : retryCondition (rounds k) = true
    · rw [calibAux_fail_zero rounds k pw h, fallback_attempts]
    · rw [calibAux_ok_zero rounds k pw (by simpa using h)]
      exact le_rfl
  | succ t ih =>
    intro k pw
    by_cases h : retryCondition (rounds k) = true
    · rw [calibAux_fail_succ_attempts rounds t k pw h]
      have := ih (k + 1) (pw + 1)
      omega
    · rw [calibAux_ok_succ rounds t k pw (by simpa using h)]
      show 1 ≤ t + 1 + 1
      omega

theorem warn_zero (rounds : ℕ → List ℕ) :
    ∀ t k pw, 2 ≤ pw → (calibAux rounds t k pw).retryWarnings = 0 := by
  intro t
  induction t with
  | zero =>
    intro k pw hpw
    by_cases h : retryCondition (rounds k) = true
    · rw [calibAux_fail_zero rounds k pw h, fallback_warnings]
      unfold warnOf
      rw [if_neg (by omega)]
    · rw [calibAux_ok_zero rounds k pw (by simpa using h)]
      rfl
  | succ t ih =>
    intro k pw hpw
    by_cases h : retryCondition (rounds k) = true
    · rw [calibAux_fail_succ_warnings rounds t k pw h,
        ih (k + 1) (pw + 1) (by omega)]
      unfold warnOf
      rw [if_neg (by omega)]
    · rw [calibAux_ok_succ rounds t k pw (by simpa using h)]
      rfl

theorem warn_char (rounds : ℕ → List ℕ) :
    (calibAux rounds 10 0 0).retryWarnings = 1 ↔
      (retryCondition (rounds 0) = true ∧ retryCondition (rounds 1) = true)
    := by
  by_cases h0 : retryCondition (rounds 0) = true
  · rw [show (10 : ℕ) = 9 + 1 from rfl,
      calibAux_fail_succ_warnings rounds 9 0 0 h0]
    by_cases h1 : retryCondition (rounds 1) = true
    · rw [show (9 : ℕ) = 8 + 1 from rfl,
        calibAux_fail_succ_warnings rounds 8 1 1 h1,
        warn_zero rounds 8 2 2 le_rfl]
      simp [warnOf, h0, h1]
    · rw [show (9 : ℕ) = 8 + 1 from rfl,
        calibAux_ok_succ rounds 8 1 1 (by simpa using h1)]
      simp [acceptOutcome, warnOf, h1]
  · rw [show (10 : ℕ) = 9 + 1 from rfl,
      calibAux_ok_succ rounds 9 0 0 (by simpa using h0)]
    simp [acceptOutcome, h0]

/-- C5: (i) when the round's average is finite (capacity non-zero) and
non-zero, the code's retry test is exactly `quality > 3` for the quality
metric `100*(1 - (avg - std_dev)/avg)` with
`std_dev = sqrt(sum_stdev/count)` — so a round with quality at most 3% is
accepted as-is; (ii) when the average is NaN (capacity 0) or zero the
quality is undefined and the round is accepted (`NaN > 3` is false);
(iii) an unacceptable round is retried at most 10 times (at most 11
measurement rounds in total); (iv) exactly one `Recalculating` diagnostic
is emitted, precisely when the first two attempts both fail the gate (the
warning fires on the second failed attempt). -/
theorem c5_quality_gate_and_retry_budget :
    (∀ r : List ℕ, r.length ≠ 0 → (get_abs_deviation r).1.avg ≠ 0 →
      (retryCondition r = true ↔
        3 < 100 * (1 - (((get_abs_deviation r).1.avg : ℝ)
          - Real.sqrt (((get_abs_deviation r).1.sum_stdev : ℝ)
              / (r.length : ℝ)))
          / ((get_abs_deviation r).1.avg : ℝ)))) ∧
    (∀ r : List ℕ, r.length = 0 ∨ (get_abs_deviation r).1.avg = 0 →
      retryCondition r = false) ∧
    (∀ (rounds : ℕ → List ℕ) (d1 d2 : List ℕ),
      (pfd_store_init rounds d1 d2).attempts ≤ 11) ∧
    (∀ (rounds : ℕ → List ℕ) (d1 d2 : List ℕ),
      ((pfd_store_init rounds d1 d2).retryWarnings = 1 ↔
        (retryCondition (rounds 0) = true ∧
          retryCondition (rounds 1) = true))) := by
  refine ⟨?_, ?_, ?_, ?_⟩
  · intro r hn h0
    have havg : avgOf r = some ((get_abs_deviation r).1.avg) := by
      simp [avgOf, hn]
    have ha : 0 < (get_abs_deviation r).1.avg :=
      lt_of_le_of_ne (gad_avg_nonneg r) (Ne.symm h0)
    have hV : 0 ≤ (get_abs_deviation r).1.sum_stdev := gad_sum_stdev_nonneg r
    have hnpos : 0 < r.length := Nat.pos_of_ne_zero hn
    have hrc : retryCondition r = true ↔
        9 * (get_abs_deviation r).1.avg ^ 2 <
          10000 * ((get_abs_deviation r).1.sum_stdev / (r.length : ℚ)) := by
      simp only [retryCondition, havg]
      rw [if_neg h0, decide_eq_true_eq]
    rw [hrc]
    have haR : (0 : ℝ) < ((get_abs_deviation r).1.avg : ℝ) := by
      exact_mod_cast ha
    have hVR : (0 : ℝ) ≤ ((get_abs_deviation r).1.sum_stdev : ℝ) := by
      exact_mod_cast hV
    have hnR : (0 : ℝ) < (r.length : ℝ) := by exact_mod_cast hnpos
    have hs0 : 0 ≤ Real.sqrt (((get_abs_deviation r).1.sum_stdev : ℝ)
        / (r.length : ℝ)) := Real.sqrt_nonneg _
    have hform : 100 * (1 - (((get_abs_deviation r).1.avg : ℝ)
          - Real.sqrt (((get_abs_deviation r).1.sum_stdev : ℝ)
            / (r.length : ℝ))) / ((get_abs_deviation r).1.avg : ℝ))
        = 100 * Real.sqrt (((get_abs_deviation r).1.sum_stdev : ℝ)
            / (r.length : ℝ)) / ((get_abs_deviation r).1.avg : ℝ) := by
      field_simp
      ring
    rw [hform]
    constructor
    · intro h
      have hQ : (9 : ℝ) * ((get_abs_deviation r).1.avg : ℝ) ^ 2 <
          10000 * (((get_abs_deviation r).1.sum_stdev : ℝ)
            / (r.length : ℝ)) := by
        exact_mod_cast h
      rw [lt_div_iff₀ haR]
      have h1 : (3 * ((get_abs_deviation r).1.avg : ℝ) / 100) ^ 2 <
          ((get_abs_deviation r).1.sum_stdev : ℝ) / (r.length : ℝ) := by
        rw [div_pow, div_lt_iff₀ (by norm_num)]
        nlinarith
      have h2 : 3 * ((get_abs_deviation r).1.avg : ℝ) / 100 <
          Real.sqrt (((get_abs_deviation r).1.sum_stdev : ℝ)
            / (r.length : ℝ)) :=
        (Real.lt_sqrt (by positivity)).mpr h1
      nlinarith
    · intro h
      rw [lt_div_iff₀ haR] at h
      have h2 : 3 * ((get_abs_deviation r).1.avg : ℝ) / 100 <
          Real.sqrt (((get_abs_deviation r).1.sum_stdev : ℝ)
            / (r.length : ℝ)) := by
        linarith
      have h1 : (3 * ((get_abs_deviation r).1.avg : ℝ) / 100) ^ 2 <
          ((get_abs_deviation r).1.sum_stdev : ℝ) / (r.length : ℝ) :=
        (Real.lt_sqrt (by positivity)).mp h2
      have hR : (9 : ℚ) * (get_abs_deviation r).1.avg ^ 2 <
          10000 * ((get_abs_deviation r).1.sum_stdev / (r.length : ℚ)) := by
        have hR2 : (9 : ℝ) * ((get_abs_deviation r).1.avg : ℝ) ^ 2 <
            10000 * (((get_abs_deviation r).1.sum_stdev : ℝ)
              / (r.length : ℝ)) := by
          nlinarith
        exact_mod_cast hR2
      exact hR
  · intro r h
    rcases h with h | h
    · simp [retryCondition, avgOf, h]
    · by_cases hlen : r.length = 0
      · simp [retryCondition, avgOf, hlen]
      · have havg : avgOf r = some ((get_abs_deviation r).1.avg) := by
          simp [avgOf, hlen]
        simp only [retryCondition, havg, h]
        simp
  · intro rounds d1 d2
    show (calibAux rounds 10 0 0).attempts ≤ 11
    have := attempts_le rounds 10 0 0
    omega
  · intro rounds d1 d2
    show (calibAux rounds 10 0 0).retryWarnings = 1 ↔ _
    exact warn_char rounds

theorem avg13val : (get_abs_deviation [1, 3]).1.avg = 2 := by
  have hc : clip [1, 3] = [1, 3] := rfl
  rw [gad_avg, hc]
  norm_num

theorem c5_quality_gate_and_retry_budget_witness :
    (retryCondition [1, 3] = true ↔
      3 < 100 * (1 - (((get_abs_deviation [1, 3]).1.avg : ℝ)
        - Real.sqrt (((get_abs_deviation [1, 3]).1.sum_stdev : ℝ)
            / (([1, 3] : List ℕ).length : ℝ)))
        / ((get_abs_deviation [1, 3]).1.avg : ℝ))) ∧
    retryCondition [] = false ∧
    (pfd_store_init (fun _ => []) [] []).attempts ≤ 11 ∧
    ((pfd_store_init (fun _ => []) [] []).retryWarnings = 1 ↔
      (retryCondition [] = true ∧ retryCondition [] = true)) :=
  ⟨c5_quality_gate_and_retry_budget.1 [1, 3] (by norm_num)
      (by rw [avg13val]; norm_num),
   c5_quality_gate_and_retry_budget.2.1 [] (Or.inl rfl),
   c5_quality_gate_and_retry_budget.2.2.1 (fun _ => []) [] [],
   c5_quality_gate_and_retry_budget.2.2.2 (fun _ => []) [] []⟩

theorem stepBands_minmax (d1 d2 d3 d4 a : ℚ) (s : DevState) (v : ℕ) :
    (stepBands d1 d2 d3 d4 a s v).max_val = s.max_val ∧
    (stepBands d1 d2 d3 d4 a s v).min_val = s.min_val ∧
    (stepBands d1 d2 d3 d4 a s v).max_val_idx = s.max_val_idx ∧
    (stepBands d1 d2 d3 d4 a s v).min_val_idx = s.min_val_idx ∧
    (stepBands d1 d2 d3 d4 a s v).idx = s.idx := by
  simp only [stepBands]
  split_ifs <;> exact ⟨rfl, rfl, rfl, rfl, rfl⟩

theorem stepMinMax_idx (s : DevState) (v : ℕ) :
    (stepMinMax s v).idx = s.idx := by
  unfold stepMinMax
  split_ifs <;> rfl

theorem devStep_max_val (a : ℚ) (s : DevState) (v : ℕ) :
    (devStep a s v).max_val = (stepMinMax s v).max_val :=
  (stepBands_minmax _ _ _ _ _ (stepMinMax s v) v).1

theorem devStep_min_val (a : ℚ) (s : DevState) (v : ℕ) :
    (devStep a s v).min_val = (stepMinMax s v).min_val :=
  (stepBands_minmax _ _ _ _ _ (stepMinMax s v) v).2.1

theorem devStep_max_idx (a : ℚ) (s : DevState) (v : ℕ) :
    (devStep a s v).max_val_idx = (stepMinMax s v).max_val_idx :=
  (stepBands_minmax _ _ _ _ _ (stepMinMax s v) v).2.2.1

theorem devStep_min_idx (a : ℚ) (s : DevState) (v : ℕ) :
    (devStep a s v).min_val_idx = (stepMinMax s v).min_val_idx :=
  (stepBands_minmax _ _ _ _ _ (stepMinMax s v) v).2.2.2.1

theorem devStep_idx (a : ℚ) (s : DevState) (v : ℕ) :
    (devStep a s v).idx = s.idx + 1 := by
  have h1 := (stepBands_minmax (0.1 * a) (0.25 * a) (0.5 * a) (0.75 * a) a
    (stepMinMax s v) v).2.2.2.2
  show (stepBands _ _ _ _ _ (stepMinMax s v) v).idx + 1 = s.idx + 1
  rw [h1, stepMinMax_idx]

theorem invMinMax_step (avg : ℚ) (seen : List ℕ) (s : DevState) (v : ℕ)
    (h : InvMinMax seen s) : InvMinMax (seen ++ [v]) (devStep avg s v) := by
  obtain ⟨hidx, hmax, hmin⟩ := h
  refine ⟨?_, ?_, ?_⟩
  · rw [devStep_idx, hidx, List.length_append]
    rfl
  · rw [devStep_max_val, devStep_max_idx]
    unfold stepMinMax
    by_cases hgt : s.max_val < (v : ℚ)
    · rw [if_pos hgt]
      right
      constructor
      · show s.idx < (seen ++ [v]).length
        rw [hidx, List.length_append, List.length_singleton]
        omega
      · show ((seen ++ [v]).getD s.idx 0 : ℚ) = (v : ℚ)
        rw [hidx, getD_append_self]
    · rw [if_neg hgt]
      have hpres : ∀ u : DevState, u.max_val = s.max_val →
          u.max_val_idx = s.max_val_idx →
          (u.max_val = 0 ∧ u.max_val_idx = 0 ∧ ∀ x ∈ seen ++ [v], x = 0) ∨
          (u.max_val_idx < (seen ++ [v]).length ∧
            ((seen ++ [v]).getD u.max_val_idx 0 : ℚ) = u.max_val) := by
        intro u hu1 hu2
        rcases hmax with ⟨h0, h1, hall⟩ | ⟨hb, heq⟩
        · left
          refine ⟨hu1.trans h0, hu2.trans h1, ?_⟩
          intro x hx
          rcases List.mem_append.mp hx with hx | hx
          · exact hall x hx
          · have hxv : x = v := by simpa using hx
            subst hxv
            have : (x : ℚ) ≤ 0 := by
              rw [← h0]
              exact le_of_not_lt hgt
            exact_mod_cast le_antisymm (by exact_mod_cast this) (Nat.zero_le x)
        · right
          rw [hu1, hu2]
          refine ⟨?_, ?_⟩
          · rw [List.length_append]
            omega
          · rw [getD_append_left _ _ _ hb]
            exact heq
      split_ifs with hlt
      · exact hpres _ rfl rfl
      · exact hpres _ rfl rfl
  · rw [devStep_min_val, devStep_min_idx]
    unfold stepMinMax
    have hpres : ∀ u : DevState, u.min_val = s.min_val →
        u.min_val_idx = s.min_val_idx →
        (u.min_val = dblMax ∧ u.min_val_idx = 0) ∨
        (u.min_val_idx < (seen ++ [v]).length ∧
          ((seen ++ [v]).getD u.min_val_idx 0 : ℚ) = u.min_val) := by
      intro u hu1 hu2
      rcases hmin with ⟨h0, h1⟩ | ⟨hb, heq⟩
      · exact Or.inl ⟨hu1.trans h0, hu2.trans h1⟩
      · right
        rw [hu1, hu2]
        refine ⟨?_, ?_⟩
        · rw [List.length_append]
          omega
        · rw [getD_append_left _ _ _ hb]
          exact heq
    by_cases hgt : s.max_val < (v : ℚ)
    · rw [if_pos hgt]
      exact hpres _ rfl rfl
    · rw [if_neg hgt]
      by_cases hlt : (v : ℚ) < s.min_val
      · rw [if_pos hlt]
        right
        constructor
        · show s.idx < (seen ++ [v]).length
          rw [hidx, List.length_append, List.length_singleton]
          omega
        · show ((seen ++ [v]).getD s.idx 0 : ℚ) = (v : ℚ)
          rw [hidx, getD_append_self]
      · rw [if_neg hlt]
        exact hpres _ rfl rfl

theorem invMinMax_foldl (avg : ℚ) :
    ∀ (rest seen : List ℕ) (s : DevState), InvMinMax seen s →
      InvMinMax (seen ++ rest) (List.foldl (devStep avg) s rest) := by
  intro rest
  induction rest with
  | nil =>
    intro seen s h
    simpa using h
  | cons v t ih =>
    intro seen s h
    rw [List.foldl_cons]
    have h2 := ih (seen ++ [v]) (devStep avg s v) (invMinMax_step avg seen s v h)
    simpa [List.append_assoc] using h2

theorem invMinMax_init : InvMinMax [] initState :=
  ⟨rfl, Or.inl ⟨rfl, rfl, by simp⟩, Or.inl ⟨rfl, rfl⟩⟩

theorem gad_inv (l : List ℕ) :
    InvMinMax (clip l)
      ((clip l).foldl (devStep (((clip l).sum : ℚ) / (l.length : ℚ)))
        initState) := by
  have := invMinMax_foldl (((clip l).sum : ℚ) / (l.length : ℚ)) (clip l) []
    initState invMinMax_init
  simpa using this

/-! ### C6: min/max tracking and its branch-order quirks -/

theorem gad_max_val (l : List ℕ) :
    (get_abs_deviation l).1.max_val =
      ((clip l).foldl (devStep (((clip l).sum : ℚ) / (l.length : ℚ)))
        initState).max_val := rfl

theorem gad_min_val (l : List ℕ) :
    (get_abs_deviation l).1.min_val =
      ((clip l).foldl (devStep (((clip l).sum : ℚ) / (l.length : ℚ)))
        initState).min_val := rfl

theorem gad_max_idx (l : List ℕ) :
    (get_abs_deviation l).1.max_val_idx =
      ((clip l).foldl (devStep (((clip l).sum : ℚ) / (l.length : ℚ)))
        initState).max_val_idx := rfl

theorem gad_min_idx (l : List ℕ) :
    (get_abs_deviation l).1.min_val_idx =
      ((clip l).foldl (devStep (((clip l).sum : ℚ) / (l.length : ℚ)))
        initState).min_val_idx := rfl

theorem foldl_const_minmax (a : ℚ) (c : ℕ) :
    ∀ (m : ℕ) (s : DevState), s.max_val = (c : ℚ) → s.min_val = (c : ℚ) →
      (List.foldl (devStep a) s (List.replicate m c)).max_val = s.max_val ∧
      (List.foldl (devStep a) s (List.replicate m c)).min_val = s.min_val ∧
      (List.foldl (devStep a) s (List.replicate m c)).max_val_idx
        = s.max_val_idx ∧
      (List.foldl (devStep a) s (List.replicate m c)).min_val_idx
        = s.min_val_idx := by
  intro m
  induction m with
  | zero =>
    intro s h1 h2
    simp
  | succ m ih =>
    intro s h1 h2
    rw [List.replicate_succ, List.foldl_cons]
    have hng : ¬ s.max_val < (c : ℚ) := by
      rw [h1]
      exact lt_irrefl _
    have hnl : ¬ (c : ℚ) < s.min_val := by
      rw [h2]
      exact lt_irrefl _
    have hsame : stepMinMax s c = s := by
      unfold stepMinMax
      rw [if_neg hng, if_neg hnl]
    have e1 : (devStep a s c).max_val = s.max_val := by
      rw [devStep_max_val, hsame]
    have e2 : (devStep a s c).min_val = s.min_val := by
      rw [devStep_min_val, hsame]
    have e3 : (devStep a s c).max_val_idx = s.max_val_idx := by
      rw [devStep_max_idx, hsame]
    have e4 : (devStep a s c).min_val_idx = s.min_val_idx := by
      rw [devStep_min_idx, hsame]
    obtain ⟨f1, f2, f3, f4⟩ := ih (devStep a s c) (e1.trans h1) (e2.trans h2)
    exact ⟨f1.trans e1, f2.trans e2, f3.trans e3, f4.trans e4⟩

theorem q1500_lt_dblMax : (1500 : ℚ) < dblMax := by
  norm_num [dblMax]

/-- C6 (amended): (i) for a non-empty array, `max_val_idx` points to an
entry (of the clipped array) equal to `max_val` — in the all-zero case the
max is never updated and the seed values `max_val = 0`, `max_val_idx = 0`
still point at an entry equal to 0; (ii) whenever the running min was ever
updated (equivalently `min_val` is not its `DBL_MAX` seed), `min_val_idx`
is in range and points to an entry equal to `min_val`; (iii) for an array
of `n + 2` equal positive in-range values, `max_val_idx = 0` and
`min_val_idx = 1` (branch order: the first element updates the max only,
the second updates the min); (iv) one loop iteration never updates both
the max and the min fields. -/
theorem c6_minmax_indices :
    (∀ l : List ℕ, 0 < l.length →
      (((get_abs_deviation l).2.getD (get_abs_deviation l).1.max_val_idx 0
        : ℕ) : ℚ) = (get_abs_deviation l).1.max_val) ∧
    (∀ l : List ℕ, (get_abs_deviation l).1.min_val ≠ dblMax →
      (((get_abs_deviation l).2.getD (get_abs_deviation l).1.min_val_idx 0
        : ℕ) : ℚ) = (get_abs_deviation l).1.min_val ∧
      (get_abs_deviation l).1.min_val_idx < l.length) ∧
    (∀ n c : ℕ, 0 < c → c ≤ 1500 →
      (get_abs_deviation (List.replicate (n + 2) c)).1.max_val_idx = 0 ∧
      (get_abs_deviation (List.replicate (n + 2) c)).1.min_val_idx = 1) ∧
    (∀ (a : ℚ) (s : DevState) (v : ℕ),
      ((devStep a s v).max_val = s.max_val ∧
        (devStep a s v).max_val_idx = s.max_val_idx) ∨
      ((devStep a s v).min_val = s.min_val ∧
        (devStep a s v).min_val_idx = s.min_val_idx)) := by
  refine ⟨?_, ?_, ?_, ?_⟩
  · intro l hl
    obtain ⟨hidx, hmax, hmin⟩ := gad_inv l
    rw [gad_snd, gad_max_val, gad_max_idx]
    rcases hmax with ⟨h0, h1, hall⟩ | ⟨hb, heq⟩
    · rw [h0, h1]
      have hlen : 0 < (clip l).length := by
        rw [clip_length]
        exact hl
      have hmem : (clip l).getD 0 0 ∈ clip l := getD_mem _ 0 hlen
      rw [hall _ hmem]
      exact Nat.cast_zero
    · exact heq
  · intro l hne
    obtain ⟨hidx, hmax, hmin⟩ := gad_inv l
    rw [gad_snd, gad_min_val, gad_min_idx]
    rw [gad_min_val] at hne
    rcases hmin with ⟨h0, h1⟩ | ⟨hb, heq⟩
    · exact absurd h0 hne
    · refine ⟨heq, ?_⟩
      rw [clip_length] at hb
      exact hb
  · intro n c hc hc1500
    have hclipc : clipVal c = c := by
      unfold clipVal PFD_VAL_UP_LIMIT
      rw [if_neg]
      push_neg
      constructor <;> omega
    have hclip : clip (List.replicate (n + 2) c) = List.replicate (n + 2) c
        := by
      unfold clip
      rw [List.map_replicate, hclipc]
    rw [gad_max_idx, gad_min_idx, hclip]
    set a : ℚ := ((List.replicate (n + 2) c).sum : ℚ)
      / ((List.replicate (n + 2) c).length : ℚ) with ha
    rw [show n + 2 = (n + 1) + 1 from rfl, List.replicate_succ,
      List.replicate_succ, List.foldl_cons, List.foldl_cons]
    have hpos : initState.max_val < (c : ℚ) := by
      show (0 : ℚ) < (c : ℚ)
      exact_mod_cast hc
    have h1max : (devStep a initState c).max_val = (c : ℚ) := by
      rw [devStep_max_val]
      unfold stepMinMax
      rw [if_pos hpos]
    have h1maxidx : (devStep a initState c).max_val_idx = 0 := by
      rw [devStep_max_idx]
      unfold stepMinMax
      rw [if_pos hpos]
      rfl
    have h1min : (devStep a initState c).min_val = dblMax := by
      rw [devStep_min_val]
      unfold stepMinMax
      rw [if_pos hpos]
      rfl
    have h1idx : (devStep a initState c).idx = 1 := by
      rw [devStep_idx]
      rfl
    have hng : ¬ (devStep a initState c).max_val < (c : ℚ) := by
      rw [h1max]
      exact lt_irrefl _
    have hlt : (c : ℚ) < (devStep a initState c).min_val := by
      rw [h1min]
      calc (c : ℚ) ≤ 1500 := by exact_mod_cast hc1500
        _ < dblMax := q1500_lt_dblMax
    have h2max : (devStep a (devStep a initState c) c).max_val = (c : ℚ)
        := by
      rw [devStep_max_val]
      unfold stepMinMax
      rw [if_neg hng, if_pos hlt]
      exact h1max
    have h2maxidx : (devStep a (devStep a initState c) c).max_val_idx = 0
        := by
      rw [devStep_max_idx]
      unfold stepMinMax
      rw [if_neg hng, if_pos hlt]
      exact h1maxidx
    have h2min : (devStep a (devStep a initState c) c).min_val = (c : ℚ)
        := by
      rw [devStep_min_val]
      unfold stepMinMax
      rw [if_neg hng, if_pos hlt]
    have h2minidx : (devStep a (devStep a initState c) c).min_val_idx = 1
        := by
      rw [devStep_min_idx]
      unfold stepMinMax
      rw [if_neg hng, if_pos hlt]
      exact h1idx
    obtain ⟨f1, f2, f3, f4⟩ := foldl_const_minmax a c n
      (devStep a (devStep a initState c) c) h2max h2min
    exact ⟨f3.trans h2maxidx, f4.trans h2minidx⟩
  · intro a s v
    by_cases hgt : s.max_val < (v : ℚ)
    · right
      constructor
      · rw [devStep_min_val]
        unfold stepMinMax
        rw [if_pos hgt]
      · rw [devStep_min_idx]
        unfold stepMinMax
        rw [if_pos hgt]
    · left
      constructor
      · rw [devStep_max_val]
        unfold stepMinMax
        rw [if_neg hgt]
        split_ifs <;> rfl
      · rw [devStep_max_idx]
        unfold stepMinMax
        rw [if_neg hgt]
        split_ifs <;> rfl

/-- C6 counterexample: for the single-element array `[5]` the min is never
updated (the element takes the max branch), so `min_val` keeps its
`DBL_MAX` seed and `min_val_idx = 0` points at the entry 5, which does NOT
equal `min_val` — refuting the claim that `min_val_idx` always points to an
entry equal to `min_val`. -/
theorem c6_counterexample :
    (get_abs_deviation [5]).1.min_val_idx = 0 ∧
    (get_abs_deviation [5]).1.min_val = dblMax ∧
    ¬ ((((get_abs_deviation [5]).2.getD
          (get_abs_deviation [5]).1.min_val_idx 0 : ℕ) : ℚ)
        = (get_abs_deviation [5]).1.min_val) := by
  have hclip : clip [5] = [5] := rfl
  have h5 : initState.max_val < ((5 : ℕ) : ℚ) := by
    show (0 : ℚ) < ((5 : ℕ) : ℚ)
    exact_mod_cast (by norm_num : (0 : ℕ) < 5)
  have hminval : (get_abs_deviation [5]).1.min_val = dblMax := by
    rw [gad_min_val, hclip, List.foldl_cons, List.foldl_nil,
      devStep_min_val]
    unfold stepMinMax
    rw [if_pos h5]
    rfl
  have hminidx : (get_abs_deviation [5]).1.min_val_idx = 0 := by
    rw [gad_min_idx, hclip, List.foldl_cons, List.foldl_nil,
      devStep_min_idx]
    unfold stepMinMax
    rw [if_pos h5]
    rfl
  refine ⟨hminidx, hminval, ?_⟩
  rw [gad_snd, hclip, hminidx, hminval]
  show ¬ (((5 : ℕ) : ℚ) = dblMax)
  norm_num [dblMax]

theorem min_21 : (get_abs_deviation [2, 1]).1.min_val = 1 := by
  have hclip : clip [2, 1] = [2, 1] := rfl
  have h2 : initState.max_val < ((2 : ℕ) : ℚ) := by
    show (0 : ℚ) < ((2 : ℕ) : ℚ)
    exact_mod_cast (by norm_num : (0 : ℕ) < 2)
  rw [gad_min_val, hclip, List.foldl_cons, List.foldl_cons, List.foldl_nil]
  set a : ℚ := (([2, 1] : List ℕ).sum : ℚ) / (([2, 1] : List ℕ).length : ℚ)
    with ha
  have h1max : (devStep a initState 2).max_val = ((2 : ℕ) : ℚ) := by
    rw [devStep_max_val]
    unfold stepMinMax
    rw [if_pos h2]
  have h1min : (devStep a initState 2).min_val = dblMax := by
    rw [devStep_min_val]
    unfold stepMinMax
    rw [if_pos h2]
    rfl
  have hng : ¬ (devStep a initState 2).max_val < ((1 : ℕ) : ℚ) := by
    rw [h1max]
    intro hcon
    have : (2 : ℕ) < 1 := by exact_mod_cast hcon
    omega
  have hlt : ((1 : ℕ) : ℚ) < (devStep a initState 2).min_val := by
    rw [h1min]
    calc ((1 : ℕ) : ℚ) ≤ 1500 := by
          exact_mod_cast (by norm_num : (1 : ℕ) ≤ 1500)
      _ < dblMax := q1500_lt_dblMax
  rw [devStep_min_val]
  unfold stepMinMax
  rw [if_neg hng, if_pos hlt]
  exact Nat.cast_one

theorem c6_minmax_indices_witness :
    ((((get_abs_deviation [2]).2.getD (get_abs_deviation [2]).1.max_val_idx 0
      : ℕ) : ℚ) = (get_abs_deviation [2]).1.max_val) ∧
    ((((get_abs_deviation [2, 1]).2.getD
        (get_abs_deviation [2, 1]).1.min_val_idx 0 : ℕ) : ℚ)
      = (get_abs_deviation [2, 1]).1.min_val ∧
      (get_abs_deviation [2, 1]).1.min_val_idx < ([2, 1] : List ℕ).length) ∧
    ((get_abs_deviation (List.replicate (0 + 2) 7)).1.max_val_idx = 0 ∧
      (get_abs_deviation (List.replicate (0 + 2) 7)).1.min_val_idx = 1) ∧
    (((devStep 0 initState 0).max_val = initState.max_val ∧
        (devStep 0 initState 0).max_val_idx = initState.max_val_idx) ∨
      ((devStep 0 initState 0).min_val = initState.min_val ∧
        (devStep 0 initState 0).min_val_idx = initState.min_val_idx)) :=
  ⟨c6_minmax_indices.1 [2] (by norm_num),
   c6_minmax_indices.2.1 [2, 1]
     (by rw [min_21]; norm_num [dblMax]),
   c6_minmax_indices.2.2.1 0 7 (by norm_num) (by norm_num),
   c6_minmax_indices.2.2.2 0 initState 0⟩

theorem c4_bands_partition_witness :
    (get_abs_deviation [1, 2, 3]).1.num_dev_10p +
      (get_abs_deviation [1, 2, 3]).1.num_dev_25p +
      (get_abs_deviation [1, 2, 3]).1.num_dev_50p +
      (get_abs_deviation [1, 2, 3]).1.num_dev_75p +
      (get_abs_deviation [1, 2, 3]).1.num_dev_rst
      = (get_abs_deviation [1, 2, 3]).1.num_vals ∧
    (get_abs_deviation [1, 2, 3]).1.num_vals = ([1, 2, 3] : List ℕ).length :=
  c4_bands_partition [1, 2, 3]

theorem c8_calibration_witness :
    pfd_store_init (fun _ => c8samples) [] [] =
      { correction := 20, attempts := 1, retryWarnings := 0,
        usedMedian := false, usedDefault := false } :=
  c8_calibration [] []
